import Mathlib

/-!
Verification development for the camera_gif_builder repository.

The definitions below are a shallow embedding of the ping-pong GIF pipeline
(`buildGifPingPong` and its helpers) and of the configuration getters
(`getMaxShiftPx`, `getCropPercent`).  Image decoding, grayscale downscaling and
the final GIF byte encoding are performed by the external `sharp` and
`gif-encoder-2` libraries; they enter the model as function parameters
(`normalize`, `grayResize`) and the pipeline output is modelled as the exact
sequence of RGBA frames handed to the encoder.
-/

namespace CameraGif

/-- Executable rational addition (the library operation is irreducible, which
blocks kernel evaluation of concrete instances). -/
def qadd (a b : ℚ) : ℚ := mkRat (a.num * b.den + b.num * a.den) (a.den * b.den)

/-- Executable rational multiplication. -/
def qmul (a b : ℚ) : ℚ := mkRat (a.num * b.num) (a.den * b.den)

/-- Executable rational division. -/
def qdiv (a b : ℚ) : ℚ := Rat.divInt (a.num * b.den) (a.den * b.num)

theorem qadd_eq (a b : ℚ) : qadd a b = a + b := (Rat.add_def' a b).symm

theorem qmul_eq (a b : ℚ) : qmul a b = a * b := by
  rw [qmul, Rat.mkRat_eq_divInt, Nat.cast_mul, ← Rat.divInt_mul_divInt',
    Rat.num_divInt_den, Rat.num_divInt_den]

theorem qdiv_eq (a b : ℚ) : qdiv a b = a / b := by
  rw [qdiv, ← Rat.divInt_div_divInt, Rat.num_divInt_den, Rat.num_divInt_den]

/-- Rounding as performed by JavaScript `Math.round`: `⌊x + 1/2⌋`. -/
def jsRound (q : ℚ) : ℤ := ⌊qadd q (mkRat 1 2)⌋

theorem jsRound_eq (q : ℚ) : jsRound q = ⌊q + 1/2⌋ := by
  rw [jsRound, qadd_eq]
  norm_num [Rat.mkRat_eq_divInt, Rat.divInt_eq_div]

/-- Inclusive list of integers from `a` to `b` in ascending order
(empty when `b < a`), modelling a JavaScript `for` loop. -/
def intRange (a b : ℤ) : List ℤ := (List.range (b + 1 - a).toNat).map fun (k : ℕ) => a + (k : ℤ)

/-- RGBA sample of a single pixel. -/
structure Pix where
  r : ℕ
  g : ℕ
  b : ℕ
  a : ℕ

/-- Raw RGBA frame: width, height, and a pixel lookup indexed by (x, y).
Models a sharp raw buffer of `w * h * 4` bytes with stride `w * 4`. -/
structure Frame where
  w : ℕ
  h : ℕ
  pix : ℕ → ℕ → Pix

/-- Grayscale work-resolution frame used by the motion estimator. -/
structure GrayFrame where
  w : ℕ
  h : ℕ
  lum : ℕ → ℕ → ℕ

/-- Model of the sharp `extract` operation: the requested sub-rectangle, or
`none` when the area is not entirely inside the image (sharp raises an
`extract_area` error in that case). -/
def extract (f : Frame) (left top width height : ℤ) : Option Frame :=
  if 0 ≤ left ∧ 0 ≤ top ∧ 0 < width ∧ 0 < height ∧
      left + width ≤ (f.w : ℤ) ∧ top + height ≤ (f.h : ℤ) then
    some ⟨width.toNat, height.toNat, fun x y => f.pix (left.toNat + x) (top.toNat + y)⟩
  else none

/-- Model of the sharp `extend` operation: pads the canvas on the four sides
with a fully transparent background. -/
def extend (f : Frame) (top left right bottom : ℕ) : Frame :=
  ⟨f.w + left + right, f.h + top + bottom, fun x y =>
    if left ≤ x ∧ x < left + f.w ∧ top ≤ y ∧ y < top + f.h then
      f.pix (x - left) (y - top)
    else ⟨0, 0, 0, 0⟩⟩

/-- `sadAt` from the source: mean absolute difference between reference `a`
and candidate `b` shifted by `(dx, dy)`, computed over the overlap after
trimming the margins; positive infinity (`⊤`) when the overlap is empty. -/
def sadAt (a b : GrayFrame) (marginX marginY : ℕ) (dx dy : ℤ) : WithTop ℚ :=
  let x0 : ℤ := max (marginX : ℤ) ((marginX : ℤ) + dx)
  let y0 : ℤ := max (marginY : ℤ) ((marginY : ℤ) + dy)
  let x1 : ℤ := min ((a.w : ℤ) - marginX) ((b.w : ℤ) - marginX + dx)
  let y1 : ℤ := min ((a.h : ℤ) - marginY) ((b.h : ℤ) - marginY + dy)
  if x1 ≤ x0 ∨ y1 ≤ y0 then ⊤
  else
    let s : ℤ := ((intRange y0 (y1 - 1)).map fun y =>
      ((intRange x0 (x1 - 1)).map fun x =>
        |(a.lum x.toNat y.toNat : ℤ) - (b.lum (x - dx).toNat (y - dy).toNat : ℤ)|).sum).sum
    ((qdiv (s : ℚ) (((x1 - x0) * (y1 - y0) : ℤ) : ℚ) : ℚ) : WithTop ℚ)

/-- Candidate offsets of the exhaustive search in the source's scan order:
outer loop over `dy` ascending, inner loop over `dx` ascending. -/
def scanCandidates (m : ℕ) : List (ℤ × ℤ) :=
  (intRange (-(m : ℤ)) m).flatMap fun dy =>
    (intRange (-(m : ℤ)) m).map fun dx => (dx, dy)

/-- One step of the search loop: replace the incumbent only on a strictly
better score (`if (s < best.score) best = ...`). -/
def bestStep (score : ℤ × ℤ → WithTop ℚ) (best : (ℤ × ℤ) × WithTop ℚ) (c : ℤ × ℤ) :
    (ℤ × ℤ) × WithTop ℚ :=
  if score c < best.2 then (c, score c) else best

/-- Offset selected by the exhaustive search; the initial incumbent is
`(0, 0)` with an infinite score, as in the source. -/
def bestOffset (score : ℤ × ℤ → WithTop ℚ) (m : ℕ) : ℤ × ℤ :=
  ((scanCandidates m).foldl (bestStep score) (((0 : ℤ), (0 : ℤ)), ⊤)).1

/-- Work-resolution offsets of the four frames; frame 0 is the reference and
keeps offset `(0, 0)`.  The margins are 10% of the reference dimensions
(`Math.floor(ref.w * 0.1)`, which is `w / 10` in integer arithmetic). -/
def motionOffsets (m : ℕ) (g0 g1 g2 g3 : GrayFrame) :
    (ℤ × ℤ) × (ℤ × ℤ) × (ℤ × ℤ) × (ℤ × ℤ) :=
  let mX := g0.w / 10
  let mY := g0.h / 10
  (((0 : ℤ), (0 : ℤ)),
   bestOffset (fun c => sadAt g0 g1 mX mY c.1 c.2) m,
   bestOffset (fun c => sadAt g0 g2 mX mY c.1 c.2) m,
   bestOffset (fun c => sadAt g0 g3 mX mY c.1 c.2) m)

/-- Work height of the stabilizer: `Math.max(120, Math.round((320 / W) * H))`. -/
def workHOf (W H : ℕ) : ℕ := max 120 (jsRound (qmul (qdiv 320 (W : ℚ)) (H : ℚ))).toNat

/-- Horizontal scale from work to target resolution. -/
def scaleXOf (W : ℕ) : ℚ := qdiv (W : ℚ) 320

/-- Vertical scale from work to target resolution. -/
def scaleYOf (W H : ℕ) : ℚ := qdiv (H : ℚ) (workHOf W H : ℚ)

/-- Scaling of a work-resolution offset to target resolution. -/
def scaleOffset (sX sY : ℚ) (o : ℤ × ℤ) : ℤ × ℤ :=
  (jsRound (qmul (o.1 : ℚ) sX), jsRound (qmul (o.2 : ℚ) sY))

/-- Target-resolution offsets of the four frames together with the per-axis
padding `pad = max(ceil(maxShift * scale), max over frames of |offset|)`,
for the stabilize-enabled path of the pipeline. -/
def stabilizeData (grayResize : Frame → ℕ → ℕ → GrayFrame) (m W H : ℕ)
    (f0 f1 f2 f3 : Frame) : ((ℤ × ℤ) × (ℤ × ℤ) × (ℤ × ℤ) × (ℤ × ℤ)) × ℤ × ℤ :=
  let workW := 320
  let workH := workHOf W H
  let sX := scaleXOf W
  let sY := scaleYOf W H
  let g0 := grayResize f0 workW workH
  let g1 := grayResize f1 workW workH
  let g2 := grayResize f2 workW workH
  let g3 := grayResize f3 workW workH
  let ow := motionOffsets m g0 g1 g2 g3
  let s0 := scaleOffset sX sY ow.1
  let s1 := scaleOffset sX sY ow.2.1
  let s2 := scaleOffset sX sY ow.2.2.1
  let s3 := scaleOffset sX sY ow.2.2.2
  let maxAbsX := max |s0.1| (max |s1.1| (max |s2.1| |s3.1|))
  let maxAbsY := max |s0.2| (max |s1.2| (max |s2.2| |s3.2|))
  let padX := max ⌈qmul (m : ℚ) sX⌉ maxAbsX
  let padY := max ⌈qmul (m : ℚ) sY⌉ maxAbsY
  ((s0, s1, s2, s3), padX, padY)

/-- `finalCropPx` of the source:
`Math.max(0, Math.round(min(W,H) * cropPercent)) + (stabilize ? max(padX, padY) : 0)`. -/
def finalCropPx (stabilize : Bool) (cropPercent : ℚ) (W H : ℕ) (padX padY : ℤ) : ℤ :=
  max 0 (jsRound (qmul ((min W H : ℕ) : ℚ) cropPercent)) +
    if stabilize then max padX padY else 0

/-- Cropped canvas dimensions: `W - 2*finalCrop` per axis, with both axes
clamped up by `Math.max(16, ...)` whenever either falls below 16. -/
def croppedDims (W H : ℕ) (fc : ℤ) : ℤ × ℤ :=
  let cw := (W : ℤ) - 2 * fc
  let ch := (H : ℤ) - 2 * fc
  if cw < 16 ∨ ch < 16 then (max 16 cw, max 16 ch) else (cw, ch)

/-- `stabilizeAndCrop` of the source: without stabilization a plain inward
extract; with stabilization an asymmetric extend according to the frame's
offset followed by the extract at origin `(finalCrop, finalCrop)`. -/
def stabilizeAndCrop (stabilize : Bool) (padX padY fc cw ch : ℤ) (f : Frame)
    (dx dy : ℤ) : Option Frame :=
  if !stabilize then extract f fc fc cw ch
  else
    let leftExt := max 0 (padX + dx)
    let topExt := max 0 (padY + dy)
    let rightExt := max 0 (padX - dx)
    let bottomExt := max 0 (padY - dy)
    extract (extend f topExt.toNat leftExt.toNat rightExt.toNat bottomExt.toNat)
      fc fc cw ch

/-- Content test of the border detector:
`a > alphaT && (r > blackT || g > blackT || b > blackT)`. -/
def isContent (alphaT blackT : ℕ) (p : Pix) : Bool :=
  decide (alphaT < p.a) &&
    (decide (blackT < p.r) || decide (blackT < p.g) || decide (blackT < p.b))

/-- Whether row `y` contains a content pixel within the first `w` columns. -/
def rowHasContent (alphaT blackT w : ℕ) (f : Frame) (y : ℕ) : Bool :=
  (List.range w).any fun x => isContent alphaT blackT (f.pix x y)

/-- Whether column `x` contains a content pixel within the first `h` rows. -/
def colHasContent (alphaT blackT h : ℕ) (f : Frame) (x : ℕ) : Bool :=
  (List.range h).any fun y => isContent alphaT blackT (f.pix x y)

/-- Top scan: first row (from 0 upward) containing content, `h` if none. -/
def scanTop (alphaT blackT w h : ℕ) (f : Frame) : ℤ :=
  (((List.range h).findIdx fun y => rowHasContent alphaT blackT w f y : ℕ) : ℤ)

/-- Bottom scan: last row containing content, scanning downward from `h - 1`,
yielding `-1` if none. -/
def scanBottom (alphaT blackT w h : ℕ) (f : Frame) : ℤ :=
  (h : ℤ) - 1 - ((List.range h).findIdx fun k => rowHasContent alphaT blackT w f (h - 1 - k))

/-- Left scan: first column (from 0 rightward) containing content, `w` if none. -/
def scanLeft (alphaT blackT w h : ℕ) (f : Frame) : ℤ :=
  (((List.range w).findIdx fun x => colHasContent alphaT blackT h f x : ℕ) : ℤ)

/-- Right scan: last column containing content, scanning leftward from `w - 1`,
yielding `-1` if none. -/
def scanRight (alphaT blackT w h : ℕ) (f : Frame) : ℤ :=
  (w : ℤ) - 1 - ((List.range w).findIdx fun k => colHasContent alphaT blackT h f (w - 1 - k))

/-- Inclusive bounding box of detected content. -/
structure Box where
  left : ℤ
  top : ℤ
  right : ℤ
  bottom : ℤ
deriving DecidableEq

/-- Per-frame content bounding box from the four edge scans. -/
def frameBox (alphaT blackT w h : ℕ) (f : Frame) : Box :=
  ⟨scanLeft alphaT blackT w h f, scanTop alphaT blackT w h f,
   scanRight alphaT blackT w h f, scanBottom alphaT blackT w h f⟩

/-- Accumulator update of the border detector's loop:
`maxLeft`, `maxTop` take the maximum, `minRight`, `minBottom` the minimum. -/
def interBoxStep (acc b : Box) : Box :=
  ⟨max acc.left b.left, max acc.top b.top, min acc.right b.right, min acc.bottom b.bottom⟩

/-- Common bounding box across frames with the source's initial accumulator
`(maxLeft, maxTop, minRight, minBottom) = (0, 0, w - 1, h - 1)`. -/
def commonBox (alphaT blackT w h : ℕ) (fs : List Frame) : Box :=
  fs.foldl (fun acc f => interBoxStep acc (frameBox alphaT blackT w h f))
    ⟨0, 0, (w : ℤ) - 1, (h : ℤ) - 1⟩

/-- Quadruple of frames flowing through the pipeline. -/
abbrev Frames4 := Frame × Frame × Frame × Frame

/-- Frames of the quadruple as a list, in device order. -/
def frames4List (fs : Frames4) : List Frame := [fs.1, fs.2.1, fs.2.2.1, fs.2.2.2]

/-- Apply a transformation to each of the four frames. -/
def map4 (t : Frame → Frame) (fs : Frames4) : Frames4 :=
  (t fs.1, t fs.2.1, t fs.2.2.1, t fs.2.2.2)

/-- Row-copy crop of the border detector, taking the rectangle with top-left
corner `(left, top)` and size `cw × ch`. -/
def cropFrame (left top cw ch : ℕ) (f : Frame) : Frame :=
  ⟨cw, ch, fun x y => f.pix (left + x) (top + y)⟩

/-- Inward bounds `(leftI, topI, rightI, bottomI)` of the auto-border box
after clamping and applying the margin. -/
def borderBoxI (alphaT blackT margin encW encH : ℕ) (fs : Frames4) : ℤ × ℤ × ℤ × ℤ :=
  let cb := commonBox alphaT blackT encW encH (frames4List fs)
  (max 0 (cb.left + margin), max 0 (cb.top + margin),
   min ((encW : ℤ) - 1) (cb.right - margin), min ((encH : ℤ) - 1) (cb.bottom - margin))

/-- Auto-border detection stage: either crops all four frames to the same
rectangle (updating the canvas dimensions) or leaves everything unchanged. -/
def borderStage (alphaT blackT margin encW encH : ℕ) (fs : Frames4) :
    Frames4 × ℕ × ℕ :=
  let cb := commonBox alphaT blackT encW encH (frames4List fs)
  if cb.left ≤ cb.right ∧ cb.top ≤ cb.bottom then
    let bi := borderBoxI alphaT blackT margin encW encH fs
    let cropW := max 1 (bi.2.2.1 - bi.1 + 1)
    let cropH := max 1 (bi.2.2.2 - bi.2.1 + 1)
    if 8 ≤ cropW ∧ 8 ≤ cropH ∧ (cropW ≠ (encW : ℤ) ∨ cropH ≠ (encH : ℤ)) then
      (map4 (cropFrame bi.1.toNat bi.2.1.toNat cropW.toNat cropH.toNat) fs,
       cropW.toNat, cropH.toNat)
    else (fs, encW, encH)
  else (fs, encW, encH)

/-- Typed failures of the pipeline. -/
inductive BuildError
  | inputCount
  | decode
  | extractArea
  | stabilization
  | frameShape
deriving DecidableEq

/-- Result of the pipeline: the frame sequence handed to the external encoder
together with the canvas dimensions and per-frame delay. -/
structure GifOutput where
  width : ℕ
  height : ℕ
  delay : ℕ
  frames : List Frame

/-- Resolved configuration value set of one invocation. -/
structure Config where
  stabilize : Bool
  maxShift : ℕ
  cropPercent : ℚ
  autoBorder : Bool
  alphaT : ℕ
  blackT : ℕ
  margin : ℕ

/-- Lift an optional stage result into the pipeline, failing with `e`. -/
def expectSome (e : BuildError) : Option Frame → Except BuildError Frame
  | some f => .ok f
  | none => .error e

/-- Stabilize-and-crop stage over the four normalized frames: motion data,
final crop amount, per-frame pad-and-extract, and the empty-buffer check. -/
def processedFrames (grayResize : Frame → ℕ → ℕ → GrayFrame) (cfg : Config)
    (W H : ℕ) (f0 f1 f2 f3 : Frame) : Except BuildError Frames4 := do
  let sd :=
    if cfg.stabilize then stabilizeData grayResize cfg.maxShift W H f0 f1 f2 f3
    else ((((0, 0), (0, 0), (0, 0), (0, 0)) :
      (ℤ × ℤ) × (ℤ × ℤ) × (ℤ × ℤ) × (ℤ × ℤ)), (0 : ℤ), (0 : ℤ))
  let offs := sd.1
  let padX := sd.2.1
  let padY := sd.2.2
  let fc := finalCropPx cfg.stabilize cfg.cropPercent W H padX padY
  let cd := croppedDims W H fc
  let p0 ← expectSome .extractArea
    (stabilizeAndCrop cfg.stabilize padX padY fc cd.1 cd.2 f0 offs.1.1 offs.1.2)
  if p0.w = 0 ∨ p0.h = 0 then .error .stabilization else
  let p1 ← expectSome .extractArea
    (stabilizeAndCrop cfg.stabilize padX padY fc cd.1 cd.2 f1 offs.2.1.1 offs.2.1.2)
  if p1.w = 0 ∨ p1.h = 0 then .error .stabilization else
  let p2 ← expectSome .extractArea
    (stabilizeAndCrop cfg.stabilize padX padY fc cd.1 cd.2 f2 offs.2.2.1.1 offs.2.2.1.2)
  if p2.w = 0 ∨ p2.h = 0 then .error .stabilization else
  let p3 ← expectSome .extractArea
    (stabilizeAndCrop cfg.stabilize padX padY fc cd.1 cd.2 f3 offs.2.2.2.1 offs.2.2.2.2)
  if p3.w = 0 ∨ p3.h = 0 then .error .stabilization else
  .ok (p0, p1, p2, p3)

/-- Frames ready for assembly: the stabilize/crop stage followed by the
optional auto-border stage, with the resulting canvas dimensions. -/
def framesAfterBorder (grayResize : Frame → ℕ → ℕ → GrayFrame) (cfg : Config)
    (W H : ℕ) (f0 f1 f2 f3 : Frame) : Except BuildError (Frames4 × ℕ × ℕ) := do
  let ps ← processedFrames grayResize cfg W H f0 f1 f2 f3
  let encW := ps.1.w
  let encH := ps.1.h
  if cfg.autoBorder then .ok (borderStage cfg.alphaT cfg.blackT cfg.margin encW encH ps)
  else .ok (ps, encW, encH)

/-- Ping-pong frame order of the source: `[0, 1, 2, 3, 2, 1]`. -/
def pingPongOrder : List ℕ := [0, 1, 2, 3, 2, 1]

/-- Indexing of the frame quadruple by position (only 0–3 occur in the order). -/
def get4 (fs : Frames4) : ℕ → Frame
  | 0 => fs.1
  | 1 => fs.2.1
  | 2 => fs.2.2.1
  | _ => fs.2.2.2

/-- Assembly loop: for each index of the ping-pong order, validate the frame
shape against the encoder dimensions and append the frame. -/
def assembleFrames (encW encH : ℕ) (fs : Frames4) : Except BuildError (List Frame) :=
  pingPongOrder.foldlM (fun acc idx =>
    let f := get4 fs idx
    if f.w = encW ∧ f.h = encH then .ok (acc ++ [f]) else .error .frameShape) []

/-- The pipeline entry point `buildGifPingPong`: input-count check, per-frame
normalization (`normalize` models sharp decode + rotate 180 + cover resize),
stabilization, optional auto-border crop, and ping-pong assembly. -/
def buildGifPingPong {Img : Type} (normalize : Img → Option Frame)
    (grayResize : Frame → ℕ → ℕ → GrayFrame) (W H delay : ℕ) (cfg : Config)
    (imageBuffers : List Img) : Except BuildError GifOutput :=
  match imageBuffers with
  | [b0, b1, b2, b3] => do
      let f0 ← expectSome .decode (normalize b0)
      let f1 ← expectSome .decode (normalize b1)
      let f2 ← expectSome .decode (normalize b2)
      let f3 ← expectSome .decode (normalize b3)
      let r ← framesAfterBorder grayResize cfg W H f0 f1 f2 f3
      let frames ← assembleFrames r.2.1 r.2.2 r.1
      .ok ⟨r.2.1, r.2.2, delay, frames⟩
  | _ => .error .inputCount

/-- Range-validated fallback used by the configuration getters: the value when
present and inside `[lo, hi]`, otherwise the default. -/
def rangedOr (lo hi deflt : ℚ) : Option ℚ → ℚ
  | some v => if lo ≤ v ∧ v ≤ hi then v else deflt
  | none => deflt

/-- `getMaxShiftPx` of the source: config value if within 0–50, else the
environment value if within 0–50, else the default 6.  `none` models an
absent key or a value that parses to NaN. -/
def getMaxShiftPx (cfgVal envVal : Option ℚ) : ℚ :=
  match cfgVal with
  | some v => if 0 ≤ v ∧ v ≤ 50 then v else rangedOr 0 50 6 envVal
  | none => rangedOr 0 50 6 envVal

/-- `getCropPercent` of the source: config value if within 0–0.3, else the
environment value if within 0–0.3, else the default 0.05. -/
def getCropPercent (cfgVal envVal : Option ℚ) : ℚ :=
  match cfgVal with
  | some v => if 0 ≤ v ∧ v ≤ mkRat 3 10 then v else rangedOr 0 (mkRat 3 10) (mkRat 1 20) envVal
  | none => rangedOr 0 (mkRat 3 10) (mkRat 1 20) envVal



theorem ok_bind {α β : Type} (a : α) (k : α → Except BuildError β) :
    (Except.ok a >>= k : Except BuildError β) = k a := rfl

theorem error_bind {α β : Type} (e : BuildError) (k : α → Except BuildError β) :
    (Except.error e >>= k : Except BuildError β) = .error e := rfl

theorem except_pure {α : Type} (a : α) : (pure a : Except BuildError α) = .ok a := rfl

/-- Concrete 16x16 uniform mid-gray frame used by witnesses. -/
def grayFrame16 : Frame := ⟨16, 16, fun _ _ => ⟨100, 100, 100, 255⟩⟩

/-- Concrete decoder used by witnesses: every buffer decodes to `grayFrame16`. -/
def constNormalize : ℕ → Option Frame := fun _ => some grayFrame16

/-- Concrete grayscale downscaler used by witnesses. -/
def constGrayResize : Frame → ℕ → ℕ → GrayFrame := fun _ _ _ => ⟨4, 4, fun _ _ => 0⟩

/-- C8: a call whose input is not a list of exactly 4 buffers yields the
input-count error as its entire result, for every choice of decoder and
configuration — no decoding, normalization or later stage output occurs. -/
theorem c8_input_count_error {Img : Type} (normalize : Img → Option Frame)
    (grayResize : Frame → ℕ → ℕ → GrayFrame) (W H delay : ℕ) (cfg : Config)
    (bufs : List Img) (hlen : bufs.length ≠ 4) :
    buildGifPingPong normalize grayResize W H delay cfg bufs = .error .inputCount := by
  rcases bufs with _ | ⟨a, _ | ⟨b, _ | ⟨c, _ | ⟨d, _ | ⟨e, rest⟩⟩⟩⟩⟩
  · rfl
  · rfl
  · rfl
  · rfl
  · exact absurd rfl hlen
  · rfl

/-- Witness for C8: a concrete call with 3 buffers fails with the
input-count error. -/
theorem c8_input_count_error_witness :
    ([0, 1, 2] : List ℕ).length ≠ 4 ∧
      buildGifPingPong constNormalize constGrayResize 16 16 120
        ⟨false, 0, 0, false, 8, 8, 0⟩ [0, 1, 2] = .error .inputCount :=
  ⟨by decide,
    c8_input_count_error constNormalize constGrayResize 16 16 120
      ⟨false, 0, 0, false, 8, 8, 0⟩ [0, 1, 2] (by decide)⟩

/-- C1: every successful invocation of the pipeline on 4 input frames encodes
exactly 6 frames, in index order [0, 1, 2, 3, 2, 1] over the (possibly
border-cropped) processed frames — the interior two frames appear twice. -/
theorem c1_pingpong_sequence {Img : Type} (normalize : Img → Option Frame)
    (grayResize : Frame → ℕ → ℕ → GrayFrame) (W H delay : ℕ) (cfg : Config)
    (bufs : List Img) (out : GifOutput)
    (hok : buildGifPingPong normalize grayResize W H delay cfg bufs = .ok out) :
    ∃ b0 b1 b2 b3 g0 g1 g2 g3 q oW oH,
      bufs = [b0, b1, b2, b3] ∧
      normalize b0 = some g0 ∧ normalize b1 = some g1 ∧
      normalize b2 = some g2 ∧ normalize b3 = some g3 ∧
      framesAfterBorder grayResize cfg W H g0 g1 g2 g3 = .ok (q, oW, oH) ∧
      out.frames = [q.1, q.2.1, q.2.2.1, q.2.2.2, q.2.2.1, q.2.1] ∧
      out.frames.length = 6 := by
  rcases bufs with _ | ⟨b0, _ | ⟨b1, _ | ⟨b2, _ | ⟨b3, _ | ⟨b4, rest⟩⟩⟩⟩⟩
  · simp [buildGifPingPong] at hok
  · simp [buildGifPingPong] at hok
  · simp [buildGifPingPong] at hok
  · simp [buildGifPingPong] at hok
  case cons.cons.cons.cons.nil =>
    simp only [buildGifPingPong] at hok
    cases h0 : normalize b0 with
    | none => rw [h0] at hok; simp [expectSome, error_bind] at hok
    | some g0 =>
    rw [h0] at hok
    simp only [expectSome, ok_bind] at hok
    cases h1 : normalize b1 with
    | none => rw [h1] at hok; simp [expectSome, error_bind] at hok
    | some g1 =>
    rw [h1] at hok
    simp only [expectSome, ok_bind] at hok
    cases h2 : normalize b2 with
    | none => rw [h2] at hok; simp [expectSome, error_bind] at hok
    | some g2 =>
    rw [h2] at hok
    simp only [expectSome, ok_bind] at hok
    cases h3 : normalize b3 with
    | none => rw [h3] at hok; simp [expectSome, error_bind] at hok
    | some g3 =>
    rw [h3] at hok
    simp only [expectSome, ok_bind] at hok
    cases hr : framesAfterBorder grayResize cfg W H g0 g1 g2 g3 with
    | error e => rw [hr] at hok; simp [error_bind] at hok
    | ok r =>
    rw [hr] at hok
    obtain ⟨q, oW, oH⟩ := r
    simp only [ok_bind] at hok
    simp only [assembleFrames, pingPongOrder, List.foldlM_cons, List.foldlM_nil, get4] at hok
    split at hok
    rotate_left
    · simp [ok_bind, error_bind] at hok
    split at hok
    rotate_left
    · simp [ok_bind, error_bind] at hok
    split at hok
    rotate_left
    · simp [ok_bind, error_bind] at hok
    split at hok
    rotate_left
    · simp [ok_bind, error_bind] at hok
    simp only [ok_bind, except_pure] at hok
    cases hok
    exact ⟨b0, b1, b2, b3, g0, g1, g2, g3, q, oW, oH, rfl, h0, h1, h2, h3, hr, rfl, rfl⟩
  · simp [buildGifPingPong] at hok

/-- Witness for C1: a concrete successful run on 4 buffers produces the
six-frame ping-pong sequence. -/
theorem c1_pingpong_sequence_witness :
    ∃ out, buildGifPingPong constNormalize constGrayResize 16 16 120
        ⟨false, 0, 0, false, 8, 8, 0⟩ [0, 1, 2, 3] = .ok out ∧
      ∃ b0 b1 b2 b3 g0 g1 g2 g3 q oW oH,
        ([0, 1, 2, 3] : List ℕ) = [b0, b1, b2, b3] ∧
        constNormalize b0 = some g0 ∧ constNormalize b1 = some g1 ∧
        constNormalize b2 = some g2 ∧ constNormalize b3 = some g3 ∧
        framesAfterBorder constGrayResize ⟨false, 0, 0, false, 8, 8, 0⟩ 16 16
          g0 g1 g2 g3 = .ok (q, oW, oH) ∧
        out.frames = [q.1, q.2.1, q.2.2.1, q.2.2.2, q.2.2.1, q.2.1] ∧
        out.frames.length = 6 :=
  ⟨_, rfl, c1_pingpong_sequence constNormalize constGrayResize 16 16 120
    ⟨false, 0, 0, false, 8, 8, 0⟩ [0, 1, 2, 3] _ rfl⟩

/-- C4: the final crop equals `round(min(W,H) * cropPercent)` plus the padding
term exactly when stabilization is enabled; the cropped canvas is
`(W - 2*finalCrop) × (H - 2*finalCrop)` with each axis independently raised
to 16, hence never smaller than 16 on either axis. -/
theorem c4_final_crop_floor (stab : Bool) (cp : ℚ) (W H : ℕ) (padX padY fc : ℤ)
    (hcp : 0 ≤ cp) :
    finalCropPx stab cp W H padX padY =
        jsRound (((min W H : ℕ) : ℚ) * cp) + (if stab then max padX padY else 0) ∧
    croppedDims W H fc = (max 16 ((W : ℤ) - 2 * fc), max 16 ((H : ℤ) - 2 * fc)) ∧
    16 ≤ (croppedDims W H fc).1 ∧ 16 ≤ (croppedDims W H fc).2 := by
  have hdims : croppedDims W H fc =
      (max 16 ((W : ℤ) - 2 * fc), max 16 ((H : ℤ) - 2 * fc)) := by
    rw [croppedDims]
    split
    · rfl
    · rename_i h
      push_neg at h
      rw [max_eq_right h.1, max_eq_right h.2]
  refine ⟨?_, hdims, ?_, ?_⟩
  · rw [finalCropPx, qmul_eq, max_eq_right]
    rw [jsRound_eq]
    refine Int.le_floor.mpr ?_
    have h0 : (0 : ℚ) ≤ ((min W H : ℕ) : ℚ) * cp :=
      mul_nonneg (Nat.cast_nonneg _) hcp
    push_cast at h0 ⊢
    linarith
  · rw [hdims]; exact le_max_left _ _
  · rw [hdims]; exact le_max_left _ _

/-- Witness for C4 at a concrete configuration. -/
theorem c4_final_crop_floor_witness :
    (0 : ℚ) ≤ 0 ∧
      (finalCropPx false 0 20 20 3 3 =
          jsRound (((min 20 20 : ℕ) : ℚ) * 0) + (if false then max 3 3 else 0) ∧
        croppedDims 20 20 3 = (max 16 ((20 : ℤ) - 2 * 3), max 16 ((20 : ℤ) - 2 * 3)) ∧
        16 ≤ (croppedDims 20 20 3).1 ∧ 16 ≤ (croppedDims 20 20 3).2) :=
  ⟨by decide, c4_final_crop_floor false 0 20 20 3 3 3 (by decide)⟩

theorem mem_intRange {a b x : ℤ} (hx : x ∈ intRange a b) : a ≤ x ∧ x ≤ b := by
  rw [intRange] at hx
  rcases List.mem_map.mp hx with ⟨k, hk, rfl⟩
  have hk2 := List.mem_range.mp hk
  omega

theorem scanCandidates_bounds {m : ℕ} {c : ℤ × ℤ} (hc : c ∈ scanCandidates m) :
    |c.1| ≤ (m : ℤ) ∧ |c.2| ≤ (m : ℤ) := by
  rcases List.mem_flatMap.mp hc with ⟨dy, hdy, hc2⟩
  rcases List.mem_map.mp hc2 with ⟨dx, hdx, rfl⟩
  have h1 := mem_intRange hdx
  have h2 := mem_intRange hdy
  constructor <;> simp only [abs_le] <;> omega

theorem bestOffset_bounds (score : ℤ × ℤ → WithTop ℚ) (m : ℕ) :
    |(bestOffset score m).1| ≤ (m : ℤ) ∧ |(bestOffset score m).2| ≤ (m : ℤ) := by
  rw [bestOffset]
  have key : ∀ (l : List (ℤ × ℤ)) (s : (ℤ × ℤ) × WithTop ℚ),
      (∀ c ∈ l, |c.1| ≤ (m : ℤ) ∧ |c.2| ≤ (m : ℤ)) →
      (|s.1.1| ≤ (m : ℤ) ∧ |s.1.2| ≤ (m : ℤ)) →
      |(l.foldl (bestStep score) s).1.1| ≤ (m : ℤ) ∧
        |(l.foldl (bestStep score) s).1.2| ≤ (m : ℤ) := by
    intro l
    induction l with
    | nil => intro s _ hs; exact hs
    | cons c l ih =>
      intro s hl hs
      simp only [List.foldl_cons]
      apply ih
      · intro d hd; exact hl d (List.mem_cons_of_mem _ hd)
      · rw [bestStep]
        split
        · exact hl c (List.mem_cons_self _ _)
        · exact hs
  refine key _ _ (fun c hc => scanCandidates_bounds hc) ?_
  constructor <;> simp

/-- C7: the work-resolution offsets selected by the motion search satisfy
`|dx| ≤ maxShift` and `|dy| ≤ maxShift` for each of frames 1 to 3, and
frame 0 always keeps offset (0, 0). -/
theorem c7_motion_search_bounds (m : ℕ) (g0 g1 g2 g3 : GrayFrame) :
    (motionOffsets m g0 g1 g2 g3).1 = (0, 0) ∧
    |(motionOffsets m g0 g1 g2 g3).2.1.1| ≤ (m : ℤ) ∧
    |(motionOffsets m g0 g1 g2 g3).2.1.2| ≤ (m : ℤ) ∧
    |(motionOffsets m g0 g1 g2 g3).2.2.1.1| ≤ (m : ℤ) ∧
    |(motionOffsets m g0 g1 g2 g3).2.2.1.2| ≤ (m : ℤ) ∧
    |(motionOffsets m g0 g1 g2 g3).2.2.2.1| ≤ (m : ℤ) ∧
    |(motionOffsets m g0 g1 g2 g3).2.2.2.2| ≤ (m : ℤ) :=
  ⟨rfl,
   (bestOffset_bounds _ m).1, (bestOffset_bounds _ m).2,
   (bestOffset_bounds _ m).1, (bestOffset_bounds _ m).2,
   (bestOffset_bounds _ m).1, (bestOffset_bounds _ m).2⟩

/-- Behaviour of the search fold: either no candidate strictly beat the
incumbent (the state is unchanged and every scanned score is at least the
incumbent score), or the result is located at a specific position of the
scan list, every earlier candidate scores strictly worse, and every later
candidate scores no better. -/
theorem foldl_bestStep_spec (score : ℤ × ℤ → WithTop ℚ) (l : List (ℤ × ℤ)) :
    ∀ s : (ℤ × ℤ) × WithTop ℚ,
      (l.foldl (bestStep score) s = s ∧ ∀ c ∈ l, s.2 ≤ score c) ∨
      ((l.foldl (bestStep score) s).2 = score (l.foldl (bestStep score) s).1 ∧
        (l.foldl (bestStep score) s).2 < s.2 ∧
        ∃ l₁ l₂, l = l₁ ++ (l.foldl (bestStep score) s).1 :: l₂ ∧
          (∀ c ∈ l₁, (l.foldl (bestStep score) s).2 < score c) ∧
          (∀ c ∈ l₂, (l.foldl (bestStep score) s).2 ≤ score c)) := by
  induction l with
  | nil => intro s; exact .inl ⟨rfl, by simp⟩
  | cons c l ih =>
    intro s
    simp only [List.foldl_cons]
    by_cases hc : score c < s.2
    · have hstep : bestStep score s c = (c, score c) := by rw [bestStep, if_pos hc]
      rw [hstep]
      rcases ih (c, score c) with ⟨heq, hall⟩ | ⟨h1, h2, l₁, l₂, hsplit, hbef, haft⟩
      · refine .inr ⟨?_, ?_, [], l, ?_, ?_, ?_⟩
        · rw [heq]
        · rw [heq]; exact hc
        · rw [heq]; rfl
        · intro d hd; exact absurd hd (List.not_mem_nil d)
        · intro d hd; rw [heq]; exact hall d hd
      · refine .inr ⟨h1, lt_trans h2 hc, c :: l₁, l₂, ?_, ?_, haft⟩
        · conv_lhs => rw [hsplit]
          rfl
        · intro d hd
          rcases List.mem_cons.mp hd with rfl | hd2
          · exact h2
          · exact hbef d hd2
    · have hstep : bestStep score s c = s := by rw [bestStep, if_neg hc]
      rw [hstep]
      rcases ih s with ⟨heq, hall⟩ | ⟨h1, h2, l₁, l₂, hsplit, hbef, haft⟩
      · refine .inl ⟨heq, ?_⟩
        intro d hd
        rcases List.mem_cons.mp hd with rfl | hd2
        · exact not_lt.mp hc
        · exact hall d hd2
      · refine .inr ⟨h1, h2, c :: l₁, l₂, ?_, ?_, haft⟩
        · conv_lhs => rw [hsplit]
          rfl
        · intro d hd
          rcases List.mem_cons.mp hd with rfl | hd2
          · exact lt_of_lt_of_le h2 (not_lt.mp hc)
          · exact hbef d hd2

/-- C3: the pipeline is deterministic — identical inputs and configuration
give identical results — and on any scan with at least one finite score the
motion search returns the first-encountered minimum-score offset of the scan
order (dy ascending outer, dx ascending inner): every candidate before it
scores strictly worse and no candidate at all scores better. -/
theorem c3_determinism_first_minimum :
    (∀ (Img : Type) (normalize : Img → Option Frame)
        (grayResize : Frame → ℕ → ℕ → GrayFrame) (W H delay : ℕ)
        (cfg cfg2 : Config) (bufs bufs2 : List Img), cfg = cfg2 → bufs = bufs2 →
        buildGifPingPong normalize grayResize W H delay cfg bufs =
          buildGifPingPong normalize grayResize W H delay cfg2 bufs2) ∧
    (∀ (score : ℤ × ℤ → WithTop ℚ) (m : ℕ),
      (∃ c ∈ scanCandidates m, score c < ⊤) →
      ∃ l₁ l₂, scanCandidates m = l₁ ++ bestOffset score m :: l₂ ∧
        (∀ c ∈ l₁, score (bestOffset score m) < score c) ∧
        (∀ c ∈ scanCandidates m, score (bestOffset score m) ≤ score c)) := by
  constructor
  · intro Img normalize grayResize W H delay cfg cfg2 bufs bufs2 hc hb
    rw [hc, hb]
  · intro score m hfin
    obtain ⟨c0, hc0mem, hc0⟩ := hfin
    have hbo : bestOffset score m =
        ((scanCandidates m).foldl (bestStep score) (((0 : ℤ), (0 : ℤ)), ⊤)).1 := rfl
    rcases foldl_bestStep_spec score (scanCandidates m) (((0 : ℤ), (0 : ℤ)), ⊤)
      with ⟨heq, hall⟩ | ⟨h1, h2, l₁, l₂, hsplit, hbef, haft⟩
    · exact absurd hc0 (not_lt.mpr (hall c0 hc0mem))
    · refine ⟨l₁, l₂, ?_, ?_, ?_⟩
      · rw [hbo]; exact hsplit
      · intro d hd
        rw [hbo, ← h1]
        exact hbef d hd
      · intro d hd
        rw [hbo, ← h1]
        rw [hsplit] at hd
        rcases List.mem_append.mp hd with hd1 | hd2
        · exact le_of_lt (hbef d hd1)
        · rcases List.mem_cons.mp hd2 with rfl | hd3
          · exact h1.le
          · exact haft d hd3

/-- Score function used by the C3 witness: a unique minimum at (0, -1). -/
def tieScore : ℤ × ℤ → WithTop ℚ :=
  fun c => if c = (0, -1) then ((0 : ℚ) : WithTop ℚ) else ((1 : ℚ) : WithTop ℚ)

/-- Witness for C3 at the concrete score `tieScore` and radius 1. -/
theorem c3_determinism_first_minimum_witness :
    (∃ c ∈ scanCandidates 1, tieScore c < ⊤) ∧
      (∃ l₁ l₂, scanCandidates 1 = l₁ ++ bestOffset tieScore 1 :: l₂ ∧
        (∀ c ∈ l₁, tieScore (bestOffset tieScore 1) < tieScore c) ∧
        (∀ c ∈ scanCandidates 1, tieScore (bestOffset tieScore 1) ≤ tieScore c)) :=
  ⟨by decide, c3_determinism_first_minimum.2 tieScore 1 (by decide)⟩

/-- C5: the common bounding box equals the fold of the four per-frame boxes,
taking the maximum of the per-frame first content rows from the top and first
content columns from the left, and the minimum of the last content rows from
the bottom and last content columns from the right; a pixel is content exactly
when its alpha exceeds `alphaT` and at least one of R,G,B exceeds `blackT`. -/
theorem c5_common_box_is_fold (alphaT blackT w h : ℕ) (f0 f1 f2 f3 : Frame) :
    commonBox alphaT blackT w h [f0, f1, f2, f3] =
      ⟨max (max (max (scanLeft alphaT blackT w h f0) (scanLeft alphaT blackT w h f1))
          (scanLeft alphaT blackT w h f2)) (scanLeft alphaT blackT w h f3),
       max (max (max (scanTop alphaT blackT w h f0) (scanTop alphaT blackT w h f1))
          (scanTop alphaT blackT w h f2)) (scanTop alphaT blackT w h f3),
       min (min (min (scanRight alphaT blackT w h f0) (scanRight alphaT blackT w h f1))
          (scanRight alphaT blackT w h f2)) (scanRight alphaT blackT w h f3),
       min (min (min (scanBottom alphaT blackT w h f0) (scanBottom alphaT blackT w h f1))
          (scanBottom alphaT blackT w h f2)) (scanBottom alphaT blackT w h f3)⟩ ∧
    (∀ p : Pix, isContent alphaT blackT p = true ↔
      alphaT < p.a ∧ (blackT < p.r ∨ blackT < p.g ∨ blackT < p.b)) := by
  constructor
  · have hL : (0 : ℤ) ≤ scanLeft alphaT blackT w h f0 := by
      rw [scanLeft]; positivity
    have hT : (0 : ℤ) ≤ scanTop alphaT blackT w h f0 := by
      rw [scanTop]; positivity
    have hR : scanRight alphaT blackT w h f0 ≤ (w : ℤ) - 1 := by
      rw [scanRight]; omega
    have hB : scanBottom alphaT blackT w h f0 ≤ (h : ℤ) - 1 := by
      rw [scanBottom]; omega
    simp only [commonBox, List.foldl_cons, List.foldl_nil, interBoxStep, frameBox]
    congr 1 <;> omega
  · intro p
    simp [isContent, or_assoc]

/-- C6: the auto-border crop is applied exactly when the post-margin box is at
least 8×8 and strictly smaller than the current canvas on at least one axis;
when it is not applied, the four frames and the canvas dimensions pass through
unchanged; when it is applied, all four frames are cropped to the identical
rectangle; and the output canvas dimensions never exceed the input ones. -/
theorem c6_border_crop_behaviour (alphaT blackT margin encW encH : ℕ)
    (fs : Frames4) (LI TI RI BI : ℤ)
    (hbi : borderBoxI alphaT blackT margin encW encH fs = (LI, TI, RI, BI)) :
    ((8 ≤ RI - LI + 1 ∧ 8 ≤ BI - TI + 1 ∧
        (RI - LI + 1 < (encW : ℤ) ∨ BI - TI + 1 < (encH : ℤ))) →
      borderStage alphaT blackT margin encW encH fs =
        (map4 (cropFrame LI.toNat TI.toNat (RI - LI + 1).toNat (BI - TI + 1).toNat) fs,
         (RI - LI + 1).toNat, (BI - TI + 1).toNat)) ∧
    (¬(8 ≤ RI - LI + 1 ∧ 8 ≤ BI - TI + 1 ∧
        (RI - LI + 1 < (encW : ℤ) ∨ BI - TI + 1 < (encH : ℤ))) →
      borderStage alphaT blackT margin encW encH fs = (fs, encW, encH)) ∧
    (borderStage alphaT blackT margin encW encH fs).2.1 ≤ encW ∧
    (borderStage alphaT blackT margin encW encH fs).2.2 ≤ encH := by
  simp only [borderBoxI] at hbi
  simp only [Prod.mk.injEq] at hbi
  obtain ⟨e1, e2, e3, e4⟩ := hbi
  subst e1; subst e2; subst e3; subst e4
  simp only [borderStage, borderBoxI]
  refine ⟨?_, ?_, ?_⟩
  · intro happ
    rw [if_pos (by omega), if_pos (by omega)]
    have h1 : max 1 (min ((encW : ℤ) - 1)
        ((commonBox alphaT blackT encW encH (frames4List fs)).right - margin) -
        max 0 ((commonBox alphaT blackT encW encH (frames4List fs)).left + margin) + 1) =
        min ((encW : ℤ) - 1)
        ((commonBox alphaT blackT encW encH (frames4List fs)).right - margin) -
        max 0 ((commonBox alphaT blackT encW encH (frames4List fs)).left + margin) + 1 := by
      omega
    have h2 : max 1 (min ((encH : ℤ) - 1)
        ((commonBox alphaT blackT encW encH (frames4List fs)).bottom - margin) -
        max 0 ((commonBox alphaT blackT encW encH (frames4List fs)).top + margin) + 1) =
        min ((encH : ℤ) - 1)
        ((commonBox alphaT blackT encW encH (frames4List fs)).bottom - margin) -
        max 0 ((commonBox alphaT blackT encW encH (frames4List fs)).top + margin) + 1 := by
      omega
    rw [h1, h2]
  · intro hnot
    by_cases houter : (commonBox alphaT blackT encW encH (frames4List fs)).left ≤
        (commonBox alphaT blackT encW encH (frames4List fs)).right ∧
        (commonBox alphaT blackT encW encH (frames4List fs)).top ≤
        (commonBox alphaT blackT encW encH (frames4List fs)).bottom
    · rw [if_pos houter, if_neg (by omega)]
    · rw [if_neg houter]
  · by_cases houter : (commonBox alphaT blackT encW encH (frames4List fs)).left ≤
        (commonBox alphaT blackT encW encH (frames4List fs)).right ∧
        (commonBox alphaT blackT encW encH (frames4List fs)).top ≤
        (commonBox alphaT blackT encW encH (frames4List fs)).bottom
    · rw [if_pos houter]
      split
      · rename_i hin
        constructor <;> · simp only [] ; omega
      · constructor <;> simp
    · rw [if_neg houter]
      constructor <;> simp

/-- Concrete 16x16 frame with a white 8×8 interior on a black background,
used by the C6 witness. -/
def ringFrame16 : Frame :=
  ⟨16, 16, fun x y =>
    if 4 ≤ x ∧ x < 12 ∧ 4 ≤ y ∧ y < 12 then ⟨255, 255, 255, 255⟩ else ⟨0, 0, 0, 255⟩⟩

/-- Witness for C6 at a concrete frame quadruple whose post-margin box is
(4, 4, 11, 11). -/
theorem c6_border_crop_behaviour_witness :
    (borderStage 8 8 0 16 16 (ringFrame16, ringFrame16, ringFrame16, ringFrame16)).2.1 ≤ 16 ∧
    (borderStage 8 8 0 16 16 (ringFrame16, ringFrame16, ringFrame16, ringFrame16)).2.2 ≤ 16 :=
  (c6_border_crop_behaviour 8 8 0 16 16
    (ringFrame16, ringFrame16, ringFrame16, ringFrame16) 4 4 11 11 (by decide)).2.2

/-- C10: if one of the four frames contains no content pixel at all, its top
scan reaches the canvas height, its bottom scan reaches -1, the intersected
box is empty (bottom bound below top bound or right bound left of left
bound), and the border stage leaves the frames and the canvas dimensions
completely unchanged. -/
theorem c10_no_content_unchanged (alphaT blackT margin encW encH : ℕ)
    (fs : Frames4) (g : Frame) (hg : g ∈ frames4List fs)
    (hnc : ∀ x < encW, ∀ y < encH, isContent alphaT blackT (g.pix x y) = false) :
    scanTop alphaT blackT encW encH g = (encH : ℤ) ∧
    scanBottom alphaT blackT encW encH g = -1 ∧
    ((commonBox alphaT blackT encW encH (frames4List fs)).bottom <
        (commonBox alphaT blackT encW encH (frames4List fs)).top ∨
      (commonBox alphaT blackT encW encH (frames4List fs)).right <
        (commonBox alphaT blackT encW encH (frames4List fs)).left) ∧
    borderStage alphaT blackT margin encW encH fs = (fs, encW, encH) := by
  have hrow : ∀ y < encH, rowHasContent alphaT blackT encW g y = false := by
    intro y hy
    rw [rowHasContent]
    rw [List.any_eq_false]
    intro x hx
    rw [hnc x (List.mem_range.mp hx) y hy]
    simp
  have htop : scanTop alphaT blackT encW encH g = (encH : ℤ) := by
    have hidx : ((List.range encH).findIdx fun y =>
        rowHasContent alphaT blackT encW g y) = encH :=
      (List.findIdx_eq_length_of_false fun y hy =>
        hrow y (List.mem_range.mp hy)).trans (List.length_range _)
    rw [scanTop, hidx]
  have hbot : scanBottom alphaT blackT encW encH g = -1 := by
    have hidx : ((List.range encH).findIdx fun k =>
        rowHasContent alphaT blackT encW g (encH - 1 - k)) = encH :=
      (List.findIdx_eq_length_of_false fun k hk =>
        hrow (encH - 1 - k) (by have := List.mem_range.mp hk; omega)).trans
        (List.length_range _)
    rw [scanBottom, hidx]
    omega
  have hempty : (commonBox alphaT blackT encW encH (frames4List fs)).bottom <
      (commonBox alphaT blackT encW encH (frames4List fs)).top := by
    simp only [frames4List, List.mem_cons, List.not_mem_nil, or_false] at hg
    rcases hg with rfl | rfl | rfl | rfl <;>
      · simp only [commonBox, frames4List, List.foldl_cons, List.foldl_nil,
          interBoxStep, frameBox]
        omega
  refine ⟨htop, hbot, Or.inl hempty, ?_⟩
  simp only [borderStage]
  rw [if_neg fun hcond => absurd hempty (not_lt.mpr hcond.2)]

/-- Concrete 2×2 all-black frame with no content pixel. -/
def blackFrame2 : Frame := ⟨2, 2, fun _ _ => ⟨0, 0, 0, 255⟩⟩

/-- Witness for C10 on four all-black frames. -/
theorem c10_no_content_unchanged_witness :
    scanTop 8 8 2 2 blackFrame2 = (2 : ℤ) ∧
    scanBottom 8 8 2 2 blackFrame2 = -1 ∧
    ((commonBox 8 8 2 2
        (frames4List (blackFrame2, blackFrame2, blackFrame2, blackFrame2))).bottom <
      (commonBox 8 8 2 2
        (frames4List (blackFrame2, blackFrame2, blackFrame2, blackFrame2))).top ∨
      (commonBox 8 8 2 2
        (frames4List (blackFrame2, blackFrame2, blackFrame2, blackFrame2))).right <
      (commonBox 8 8 2 2
        (frames4List (blackFrame2, blackFrame2, blackFrame2, blackFrame2))).left) ∧
    borderStage 8 8 0 2 2 (blackFrame2, blackFrame2, blackFrame2, blackFrame2) =
      ((blackFrame2, blackFrame2, blackFrame2, blackFrame2), 2, 2) :=
  c10_no_content_unchanged 8 8 0 2 2 (blackFrame2, blackFrame2, blackFrame2, blackFrame2)
    blackFrame2 (by simp [frames4List]) (by decide)

/-- Counterexample for C2: a concrete pipeline run (16×16 target, stabilize
on, maxShift 0, cropPercent 0.3) in which the cropped size is clamped up to
the 16 floor and the extraction then reads outside the extended canvas, so
the pipeline fails with the extract-area error. -/
theorem c2_extraction_counterexample :
    buildGifPingPong constNormalize constGrayResize 16 16 120
      ⟨true, 0, mkRat 3 10, true, 8, 8, 0⟩ [0, 1, 2, 3] = .error .extractArea := by rfl

/-- C2 (amended): with stabilization enabled, whenever the cropped size was
not clamped up to the 16-pixel floor (both axes of `W - 2*finalCrop` are at
least 16), the extraction at origin (finalCrop, finalCrop) stays entirely
inside the extended canvas, for every frame offset within the pad bounds. -/
theorem c2_extraction_in_bounds (padX padY fc dx dy : ℤ) (f : Frame)
    (hdx : |dx| ≤ padX) (hdy : |dy| ≤ padY) (hfc : 0 ≤ fc)
    (hw : 16 ≤ (f.w : ℤ) - 2 * fc) (hh : 16 ≤ (f.h : ℤ) - 2 * fc) :
    (stabilizeAndCrop true padX padY fc (croppedDims f.w f.h fc).1
      (croppedDims f.w f.h fc).2 f dx dy).isSome = true := by
  have hcd : croppedDims f.w f.h fc = ((f.w : ℤ) - 2 * fc, (f.h : ℤ) - 2 * fc) := by
    rw [croppedDims, if_neg]
    omega
  rw [hcd]
  simp only [stabilizeAndCrop, Bool.not_true, Bool.false_eq_true, if_false]
  rw [extract, if_pos]
  · rfl
  · refine ⟨hfc, hfc, by omega, by omega, ?_, ?_⟩ <;>
      · simp only [extend]
        push_cast
        omega

/-- Witness for the amended C2 at a concrete in-bounds configuration. -/
theorem c2_extraction_in_bounds_witness :
    |(0 : ℤ)| ≤ 0 ∧ (0 : ℤ) ≤ 0 ∧
      16 ≤ (grayFrame16.w : ℤ) - 2 * 0 ∧ 16 ≤ (grayFrame16.h : ℤ) - 2 * 0 ∧
      (stabilizeAndCrop true 0 0 0 (croppedDims grayFrame16.w grayFrame16.h 0).1
        (croppedDims grayFrame16.w grayFrame16.h 0).2 grayFrame16 0 0).isSome = true :=
  ⟨by decide, by decide, by decide, by decide,
    c2_extraction_in_bounds 0 0 0 0 0 grayFrame16 (by decide) (by decide) (by decide)
      (by decide) (by decide)⟩

/-- Counterexample for C9: the configured value 100 for maxShiftPx is out of
range; the getter discards it and returns the default 6 instead of clamping
it to the nearest bound 50, and likewise cropPercent 1 yields the default
0.05 rather than the bound 0.3. -/
theorem c9_clamp_counterexample :
    getMaxShiftPx (some 100) none = 6 ∧
      getMaxShiftPx (some 100) none ≠ min 50 (max 0 (100 : ℚ)) ∧
    getCropPercent (some 1) none = mkRat 1 20 ∧
      getCropPercent (some 1) none ≠ min (mkRat 3 10) (max 0 (1 : ℚ)) := by
  refine ⟨rfl, ?_, rfl, ?_⟩ <;> decide

/-- C9 (amended): each getter returns the configured value exactly when it
lies inside the admissible range; an out-of-range or absent value is
discarded — never clamped — falling back to the range-checked environment
value or the default (6 and 0.05 respectively); the result always lies
inside the admissible range. -/
theorem c9_config_discard_not_clamp (v c : ℚ) (cfgVal envVal : Option ℚ) :
    (0 ≤ v ∧ v ≤ 50 → getMaxShiftPx (some v) envVal = v) ∧
    (¬(0 ≤ v ∧ v ≤ 50) → getMaxShiftPx (some v) envVal = rangedOr 0 50 6 envVal) ∧
    getMaxShiftPx none envVal = rangedOr 0 50 6 envVal ∧
    getMaxShiftPx none none = 6 ∧
    (0 ≤ getMaxShiftPx cfgVal envVal ∧ getMaxShiftPx cfgVal envVal ≤ 50) ∧
    (0 ≤ c ∧ c ≤ mkRat 3 10 → getCropPercent (some c) envVal = c) ∧
    (¬(0 ≤ c ∧ c ≤ mkRat 3 10) →
      getCropPercent (some c) envVal = rangedOr 0 (mkRat 3 10) (mkRat 1 20) envVal) ∧
    getCropPercent none envVal = rangedOr 0 (mkRat 3 10) (mkRat 1 20) envVal ∧
    getCropPercent none none = mkRat 1 20 ∧
    (0 ≤ getCropPercent cfgVal envVal ∧ getCropPercent cfgVal envVal ≤ mkRat 3 10) := by
  have hrangeS : ∀ o : Option ℚ, 0 ≤ rangedOr 0 50 6 o ∧ rangedOr 0 50 6 o ≤ 50 := by
    intro o
    rcases o with _ | e
    · exact ⟨by norm_num [rangedOr], by norm_num [rangedOr]⟩
    · simp only [rangedOr]
      split
      · rename_i he; exact he
      · exact ⟨by norm_num, by norm_num⟩
  have hrangeC : ∀ o : Option ℚ, 0 ≤ rangedOr 0 (mkRat 3 10) (mkRat 1 20) o ∧
      rangedOr 0 (mkRat 3 10) (mkRat 1 20) o ≤ mkRat 3 10 := by
    intro o
    rcases o with _ | e
    · exact ⟨by decide, by decide⟩
    · simp only [rangedOr]
      split
      · rename_i he; exact he
      · exact ⟨by decide, by decide⟩
  refine ⟨?_, ?_, rfl, rfl, ?_, ?_, ?_, rfl, rfl, ?_⟩
  · intro hv
    simp only [getMaxShiftPx, if_pos hv]
  · intro hv
    simp only [getMaxShiftPx, if_neg hv]
  · rcases cfgVal with _ | v2
    · exact hrangeS envVal
    · simp only [getMaxShiftPx]
      split
      · rename_i hv2; exact hv2
      · exact hrangeS envVal
  · intro hc
    simp only [getCropPercent, if_pos hc]
  · intro hc
    simp only [getCropPercent, if_neg hc]
  · rcases cfgVal with _ | c2
    · exact hrangeC envVal
    · simp only [getCropPercent]
      split
      · rename_i hc2; exact hc2
      · exact hrangeC envVal

/-- Witness for the amended C9: an in-range value is kept, the out-of-range
value 60 falls back to the default, and the result is range-bounded. -/
theorem c9_config_discard_not_clamp_witness :
    getMaxShiftPx (some 10) none = 10 ∧
    getMaxShiftPx (some 60) none = rangedOr 0 50 6 none ∧
    (0 ≤ getCropPercent (some 1) none ∧ getCropPercent (some 1) none ≤ mkRat 3 10) :=
  ⟨(c9_config_discard_not_clamp 10 1 (some 10) none).1 (by decide),
   (c9_config_discard_not_clamp 60 1 (some 60) none).2.1 (by decide),
   (c9_config_discard_not_clamp 60 1 (some 1) none).2.2.2.2.2.2.2.2.2⟩

end CameraGif
